import Mathlib

/-!
Shallow embedding of the clipping-generation-app repository in Lean 4.

The embedding covers three source files of the repository:

* `src/api/server.js` — the Express server, in particular the
  `GET /api/clip-video` handler (parameter validation, source-branch
  selection, the yt-dlp / direct-URL / Supabase download steps, the
  ffmpeg invocation, and the temp-file cleanup blocks);
* `src/unnamed/part_000` (the Supabase `process-video` edge function) —
  the Markdown-fence stripping applied to the Gemini response text and
  the success-response object construction;
* `src/unnamed/part_001` (`download-video.js`) — the `getFilename`
  helper with its sanitization step.

JavaScript numbers are modelled by `JSNum` (NaN / ±Infinity / an exact
unnormalized rational `Q`), JavaScript strings by Lean `String` /
`List Char`, the file system visible to a request by a `Finset String`
of existing paths, and external events (HTTP status codes, subprocess
exit codes, the platform URL parser) by explicit parameters.
-/

/-- Exact rational with integer numerator and natural denominator, kept
unnormalized so that all arithmetic is plain `Int`/`Nat` computation.
Stands in for the IEEE doubles the program manipulates; the handler
only compares and prints these values. -/
structure Q where
  num : Int
  den : Nat
deriving DecidableEq

/-- Rational order, by cross multiplication. -/
def Q.ltb (a b : Q) : Bool := decide (a.num * (b.den : Int) < b.num * (a.den : Int))

/-- Rational order (non-strict), by cross multiplication. -/
def Q.leb (a b : Q) : Bool := decide (a.num * (b.den : Int) ≤ b.num * (a.den : Int))

/-- JavaScript number as relevant to this program: NaN, the two
infinities, or a finite value. -/
inductive JSNum
  | nan
  | posInf
  | negInf
  | fin (q : Q)
deriving DecidableEq

/-- JavaScript `isNaN` on an already-converted number. -/
def JSNum.isNaN : JSNum → Bool
  | .nan => true
  | _ => false

/-- JavaScript `Number.isFinite`. -/
def JSNum.isFinite : JSNum → Bool
  | .fin _ => true
  | _ => false

/-- JavaScript `<` on numbers (IEEE semantics: any comparison with NaN
is false). -/
def jsLt : JSNum → JSNum → Bool
  | .nan, _ => false
  | _, .nan => false
  | .negInf, .negInf => false
  | .negInf, _ => true
  | _, .negInf => false
  | .posInf, _ => false
  | .fin _, .posInf => true
  | .fin a, .fin b => a.ltb b

/-- JavaScript `<=` on numbers (IEEE semantics: any comparison with NaN
is false; `Infinity <= Infinity` is true). -/
def jsLe : JSNum → JSNum → Bool
  | .nan, _ => false
  | _, .nan => false
  | .negInf, _ => true
  | _, .negInf => false
  | _, .posInf => true
  | .posInf, _ => false
  | .fin a, .fin b => a.leb b

/-- Whitespace as accepted by JavaScript number parsing and `trim`
(the common ASCII subset plus NBSP; the full Unicode white-space set is
irrelevant to this program's inputs). -/
def jsWS (c : Char) : Bool :=
  c = ' ' || c = '\t' || c = '\n' || c = '\r' || c = '\x0b' || c = '\x0c' || c = ' '

/-- Decimal digit test. -/
def isDigitCh (c : Char) : Bool := '0' ≤ c && c ≤ '9'

/-- Value of a list of decimal digits (most significant first). -/
def digitsVal (l : List Char) : Nat :=
  l.foldl (fun a c => 10 * a + (c.toNat - '0'.toNat)) 0

/-- JavaScript `parseFloat` (ECMA-262 `parseFloat`): skip leading
whitespace, optional sign, then the longest prefix that is `Infinity`
or a decimal literal `digits [. digits] [e/E [sign] digits]`; result is
NaN when no numeric prefix exists.  Exact rationals stand in for the
IEEE doubles the real function produces. -/
def parseFloatCore (l0 : List Char) : JSNum :=
  let l1 := l0.dropWhile jsWS
  let neg : Bool := match l1 with
    | '-' :: _ => true
    | _ => false
  let l : List Char := match l1 with
    | '-' :: r => r
    | '+' :: r => r
    | _ => l1
  if "Infinity".data.isPrefixOf l then (if neg then .negInf else .posInf)
  else
    let ip := l.takeWhile isDigitCh
    let l2 := l.dropWhile isDigitCh
    let fp : List Char := match l2 with
      | '.' :: r => r.takeWhile isDigitCh
      | _ => []
    let l3 : List Char := match l2 with
      | '.' :: r => r.dropWhile isDigitCh
      | _ => l2
    if ip.isEmpty && fp.isEmpty then .nan
    else
      let num0 : Nat := digitsVal ip * 10 ^ fp.length + digitsVal fp
      let den0 : Nat := 10 ^ fp.length
      let ex : Int := match l3 with
        | 'e' :: '-' :: r => (if (r.takeWhile isDigitCh).isEmpty then 0 else -(digitsVal (r.takeWhile isDigitCh) : Int))
        | 'E' :: '-' :: r => (if (r.takeWhile isDigitCh).isEmpty then 0 else -(digitsVal (r.takeWhile isDigitCh) : Int))
        | 'e' :: '+' :: r => (if (r.takeWhile isDigitCh).isEmpty then 0 else (digitsVal (r.takeWhile isDigitCh) : Int))
        | 'E' :: '+' :: r => (if (r.takeWhile isDigitCh).isEmpty then 0 else (digitsVal (r.takeWhile isDigitCh) : Int))
        | 'e' :: r => (if (r.takeWhile isDigitCh).isEmpty then 0 else (digitsVal (r.takeWhile isDigitCh) : Int))
        | 'E' :: r => (if (r.takeWhile isDigitCh).isEmpty then 0 else (digitsVal (r.takeWhile isDigitCh) : Int))
        | _ => 0
      let num1 : Nat := if 0 ≤ ex then num0 * 10 ^ ex.toNat else num0
      let den1 : Nat := if 0 ≤ ex then den0 else den0 * 10 ^ (-ex).toNat
      .fin ⟨if neg then -(num1 : Int) else (num1 : Int), den1⟩

/-- `parseFloat` on a string ([server.js:97-98]). -/
def parseFloat (s : String) : JSNum := parseFloatCore s.data

/-- Decimal digits after the point for remainder `rem` over denominator
`d`, with fuel (the values this program prints have short exact
expansions). -/
def natDigitsFrac (d : Nat) : Nat → Nat → List Char
  | _, 0 => []
  | rem, Nat.succ fuel =>
    if rem = 0 then []
    else Char.ofNat ('0'.toNat + rem * 10 / d) :: natDigitsFrac d (rem * 10 % d) fuel

/-- JavaScript number-to-string conversion as used by template-literal
interpolation (`String(10) = "10"`, `String(10.5) = "10.5"`,
`String(Infinity) = "Infinity"`). -/
def numToString : JSNum → String
  | .nan => "NaN"
  | .posInf => "Infinity"
  | .negInf => "-Infinity"
  | .fin q =>
    let an := q.num.natAbs
    let ip := an / q.den
    let frac := natDigitsFrac q.den (an % q.den) 20
    (if q.num < 0 then "-" else "") ++ toString ip ++ (if frac.isEmpty then "" else "." ++ String.mk frac)

/-- Hex digit value, `none` for a non-hex character. -/
def hexVal (c : Char) : Option Nat :=
  if '0' ≤ c ∧ c ≤ '9' then some (c.toNat - '0'.toNat)
  else if 'a' ≤ c ∧ c ≤ 'f' then some (c.toNat - 'a'.toNat + 10)
  else if 'A' ≤ c ∧ c ≤ 'F' then some (c.toNat - 'A'.toNat + 10)
  else none

/-- UTF-8 encoding of a character, as byte values. -/
def utf8Bytes (c : Char) : List Nat :=
  let n := c.toNat
  if n < 0x80 then [n]
  else if n < 0x800 then [0xC0 + n / 64, 0x80 + n % 64]
  else if n < 0x10000 then [0xE0 + n / 4096, 0x80 + (n / 64) % 64, 0x80 + n % 64]
  else [0xF0 + n / 262144, 0x80 + (n / 4096) % 64, 0x80 + (n / 64) % 64, 0x80 + n % 64]

/-- Percent-decoding pass of `decodeURIComponent`: a `%` must be
followed by two hex digits (otherwise the JS function throws
`URIError`, modelled as `none`); other characters contribute their
UTF-8 bytes. -/
def pctBytes : List Char → Option (List Nat)
  | [] => some []
  | c :: rest =>
    if c = '%' then
      match rest with
      | h :: lo :: rest2 =>
        match hexVal h, hexVal lo, pctBytes rest2 with
        | some a, some b, some bs => some ((16 * a + b) :: bs)
        | _, _, _ => none
      | _ => none
    else
      match pctBytes rest with
      | some bs => some (utf8Bytes c ++ bs)
      | none => none

/-- Continuation-byte test for UTF-8. -/
def isContByte (b : Nat) : Bool := 0x80 ≤ b && b < 0xC0

/-- Prepend a character to an optional decoded tail. -/
def consOpt (c : Char) : Option (List Char) → Option (List Char)
  | some cs => some (c :: cs)
  | none => none

/-- One step of strict UTF-8 decoding: decode the character starting
with byte `b` (overlong encodings, surrogates and out-of-range values
rejected), returning it with the remaining bytes. -/
def utf8Step (b : Nat) (rest : List Nat) : Option (Char × List Nat) :=
  if b < 0x80 then some (Char.ofNat b, rest)
  else if b < 0xC2 then none
  else if b < 0xE0 then
    match rest with
    | c1 :: r =>
      if isContByte c1 then some (Char.ofNat ((b - 0xC0) * 64 + (c1 - 0x80)), r)
      else none
    | [] => none
  else if b < 0xF0 then
    match rest with
    | c1 :: c2 :: r =>
      if isContByte c1 && isContByte c2 then
        (if 0x800 ≤ (b - 0xE0) * 4096 + (c1 - 0x80) * 64 + (c2 - 0x80) ∧
            ¬ (0xD800 ≤ (b - 0xE0) * 4096 + (c1 - 0x80) * 64 + (c2 - 0x80) ∧
               (b - 0xE0) * 4096 + (c1 - 0x80) * 64 + (c2 - 0x80) ≤ 0xDFFF) then
          some (Char.ofNat ((b - 0xE0) * 4096 + (c1 - 0x80) * 64 + (c2 - 0x80)), r)
        else none)
      else none
    | _ => none
  else if b < 0xF5 then
    match rest with
    | c1 :: c2 :: c3 :: r =>
      if isContByte c1 && isContByte c2 && isContByte c3 then
        (if 0x10000 ≤ (b - 0xF0) * 262144 + (c1 - 0x80) * 4096 + (c2 - 0x80) * 64 + (c3 - 0x80) ∧
            (b - 0xF0) * 262144 + (c1 - 0x80) * 4096 + (c2 - 0x80) * 64 + (c3 - 0x80) ≤ 0x10FFFF then
          some (Char.ofNat ((b - 0xF0) * 262144 + (c1 - 0x80) * 4096 + (c2 - 0x80) * 64 + (c3 - 0x80)), r)
        else none)
      else none
    | _ => none
  else none

/-- Strict UTF-8 decoding of a byte list; the fuel argument is the
byte count, which bounds the number of decoded characters. -/
def utf8DecodeAux : Nat → List Nat → Option (List Char)
  | _, [] => some []
  | 0, _ :: _ => none
  | Nat.succ fuel, b :: rest =>
    match utf8Step b rest with
    | some (c, r) => consOpt c (utf8DecodeAux fuel r)
    | none => none

/-- Strict UTF-8 decoding, as `decodeURIComponent` requires of the
percent-decoded bytes. -/
def utf8Decode (bs : List Nat) : Option (List Char) := utf8DecodeAux bs.length bs

/-- JavaScript `decodeURIComponent`; `none` models the `URIError`
throw on a malformed escape sequence ([server.js:102]). -/
def decodeURIComponent (s : String) : Option String :=
  match pctBytes s.data with
  | none => none
  | some bs =>
    match utf8Decode bs with
    | none => none
    | some cs => some (String.mk cs)

/-- JavaScript truthiness for an optional query-string value: absent
(`undefined`) and the empty string are falsy. -/
def truthy : Option String → Bool
  | some s => !(s == "")
  | none => false

/-- Contiguous-substring test on character lists. -/
def listInfix (sub : List Char) : List Char → Bool
  | [] => sub.isEmpty
  | c :: rest => sub.isPrefixOf (c :: rest) || listInfix sub rest

/-- JavaScript `String.prototype.includes`. -/
def includesSubstr (s sub : String) : Bool := listInfix sub.data s.data

/-- The YouTube-URL test of [server.js:138]. -/
def isYouTubeId (s : String) : Bool :=
  includesSubstr s "youtube.com/" || includesSubstr s "youtu.be/"

/-- Final segment of a path (Node `path.basename` without suffix
stripping): trailing slashes are ignored, then everything after the
last `/` is taken. -/
def lastPathSegment (p : String) : String :=
  String.mk (((p.data.reverse.dropWhile (· = '/')).takeWhile (· ≠ '/')).reverse)

/-- Node `path.extname`: the suffix of the final path segment from its
last `.`, or `""` when there is no dot or the only dot starts the
segment (hidden files such as `.bashrc`); `".."` has no extension. -/
def extname (p : String) : String :=
  let b := (lastPathSegment p).data
  if b = ['.', '.'] then ""
  else
    let tailNoDot := (b.reverse.takeWhile (· ≠ '.')).reverse
    if tailNoDot.length = b.length then ""
    else if tailNoDot.length + 1 = b.length then ""
    else String.mk ('.' :: tailNoDot)

/-- Node `path.basename(p, ext)`: the final path segment, with `ext`
stripped when it is a proper suffix of the segment. -/
def basenameExt (p ext : String) : String :=
  let b := lastPathSegment p
  if ext ≠ "" ∧ ext.data.length < b.data.length ∧ ext.data.isSuffixOf b.data then
    String.mk (b.data.take (b.data.length - ext.data.length))
  else b

/-- Query parameters of `GET /api/clip-video`, as destructured at
[server.js:86].  `none` is an absent parameter (`undefined`). -/
structure ClipQuery where
  identifier : Option String
  sourceType : Option String
  startTime : Option String
  endTime : Option String
  inputFileName : Option String
deriving DecidableEq

/-- Per-request environment facts the handler consults before the
download/extraction stage: the random hex identifier from
`crypto.randomBytes(8).toString('hex')` ([server.js:105]), whether
`fsp.access` on the local input file succeeds ([server.js:123]), and
whether the Supabase client was configured at startup
([server.js:44-49,195]). -/
structure Env where
  uniqueId : String
  localOk : Bool
  supabaseConfigured : Bool
deriving DecidableEq

/-- Body of an early (pre-streaming) HTTP response: `res.json({error})`
or `res.send(text)`. -/
inductive RespBody
  | json (error : String)
  | text (message : String)
deriving DecidableEq

/-- An HTTP response with status code and body. -/
structure Resp where
  status : Nat
  body : RespBody
deriving DecidableEq

/-- Whether a response body is of the JSON `{ "error": ... }` shape. -/
def isJsonBody : RespBody → Bool
  | .json _ => true
  | .text _ => false

/-- The three download branches of [server.js:136-221]. -/
inductive DlBranch
  | ytdlp
  | direct
  | supabaseDl
deriving DecidableEq

/-- I/O actions the handler performs before the download/extraction
stage (only the `fsp.access` probe of the local-file branch). -/
inductive IOEff
  | fsAccess (p : String)
deriving DecidableEq

/-- Outcome of the synchronous part of the `/api/clip-video` handler:
an early response, an uncaught `decodeURIComponent` throw, or entry
into the extraction stage with the chosen source (local file, or a
download branch with its temp paths). -/
inductive HandlerOut
  | resp (r : Resp)
  | thrown
  | extractLocal (src : String) (s e : JSNum) (fname : String)
  | extractDownload (b : DlBranch) (tempBase src : String) (s e : JSNum) (fname : String)
deriving DecidableEq

/-- Mount point for host downloads ([server.js:24]). -/
def HOST_DOWNLOADS_PATH_IN_CONTAINER : String := "/data/host_downloads"

/-- The server's temp directory `path.join(__dirname, 'tmp')`
([server.js:18]); the absolute prefix is environment-dependent and
irrelevant to every claim. -/
def tempDir : String := "tmp"

/-- [server.js:102]: `identifier ? decodeURIComponent(identifier) :
null`.  Outer `none` models the `URIError` throw escaping the handler;
`some none` is `decodedIdentifier = null`. -/
def decodeIdentifierStep (identifier : Option String) : Option (Option String) :=
  if truthy identifier then
    match decodeURIComponent (identifier.getD "") with
    | some d => some (some d)
    | none => none
  else some none

/-- [server.js:107-108]: output filename
`clip_${baseNameForClip}_${start}-${end}.mp4`, where `baseNameForClip`
is the extension-stripped basename of `inputFileName` when that is
truthy, else the random id when a decoded identifier exists, else
`"video"`. -/
def mkClipFilename (q : ClipQuery) (decodedIdentifier : Option String) (uniqueId : String)
    (s e : JSNum) : String :=
  "clip_" ++
    (if truthy q.inputFileName then
      basenameExt (q.inputFileName.getD "") (extname (q.inputFileName.getD ""))
    else if truthy decodedIdentifier then uniqueId
    else "video") ++
    "_" ++ numToString s ++ "-" ++ numToString e ++ ".mp4"

/-- Branch selection of [server.js:118-228], after validation and
identifier decoding: the `inputFileName` branch probes the mounted
file and 404s when absent; otherwise the download branch is chosen
from `sourceType` and the decoded identifier. -/
def clipVideoBranch (q : ClipQuery) (env : Env) (decodedIdentifier : Option String)
    (s e : JSNum) : List IOEff × HandlerOut :=
  if truthy q.inputFileName then
    if env.localOk then
      ([.fsAccess (HOST_DOWNLOADS_PATH_IN_CONTAINER ++ "/" ++ q.inputFileName.getD "")],
       .extractLocal (HOST_DOWNLOADS_PATH_IN_CONTAINER ++ "/" ++ q.inputFileName.getD "")
         s e (mkClipFilename q decodedIdentifier env.uniqueId s e))
    else
      ([.fsAccess (HOST_DOWNLOADS_PATH_IN_CONTAINER ++ "/" ++ q.inputFileName.getD "")],
       .resp ⟨404, .text ("Error: Local file " ++ q.inputFileName.getD "" ++
         " not found or not accessible in the mapped directory.")⟩)
  else if truthy q.sourceType && truthy decodedIdentifier then
    if q.sourceType.getD "" = "external_url" then
      if isYouTubeId (decodedIdentifier.getD "") then
        ([], .extractDownload .ytdlp (tempDir ++ "/input_" ++ env.uniqueId ++ ".tmp")
          (tempDir ++ "/input_" ++ env.uniqueId ++ ".tmp" ++ ".mp4")
          s e (mkClipFilename q decodedIdentifier env.uniqueId s e))
      else
        ([], .extractDownload .direct (tempDir ++ "/input_" ++ env.uniqueId ++ ".tmp")
          (tempDir ++ "/input_" ++ env.uniqueId ++ ".tmp" ++ ".mp4")
          s e (mkClipFilename q decodedIdentifier env.uniqueId s e))
    else if q.sourceType.getD "" = "supabase" then
      if env.supabaseConfigured then
        ([], .extractDownload .supabaseDl (tempDir ++ "/input_" ++ env.uniqueId ++ ".tmp")
          (tempDir ++ "/input_" ++ env.uniqueId ++ ".tmp" ++ ".mp4")
          s e (mkClipFilename q decodedIdentifier env.uniqueId s e))
      else ([], .resp ⟨500, .json "Supabase client not configured on server."⟩)
    else
      ([], .resp ⟨400, .json ("Invalid sourceType: " ++ q.sourceType.getD "" ++
        " when inputFileName is not provided.")⟩)
  else ([], .resp ⟨400, .json "Invalid request parameters."⟩)

/-- The synchronous part of the `GET /api/clip-video` handler
([server.js:84-228]): presence validation, numeric validation via
`parseFloat`, identifier decoding, then branch selection.  The effect
list records filesystem probes performed before the
download/extraction stage; validation failures perform none. -/
def clipVideoHandler (q : ClipQuery) (env : Env) : List IOEff × HandlerOut :=
  if q.startTime = none ∨ q.endTime = none then
    ([], .resp ⟨400, .json "Missing required query parameters: startTime, endTime"⟩)
  else if truthy q.inputFileName = false ∧
      (truthy q.identifier = false ∨ truthy q.sourceType = false) then
    ([], .resp ⟨400, .json "Missing required query parameters: provide inputFileName OR identifier and sourceType"⟩)
  else if (parseFloat (q.startTime.getD "")).isNaN || (parseFloat (q.endTime.getD "")).isNaN ||
      jsLt (parseFloat (q.startTime.getD "")) (.fin ⟨0, 1⟩) ||
      jsLe (parseFloat (q.endTime.getD "")) (parseFloat (q.startTime.getD "")) then
    ([], .resp ⟨400, .json "Invalid startTime or endTime parameters."⟩)
  else
    match decodeIdentifierStep q.identifier with
    | none => ([], .thrown)
    | some decodedIdentifier =>
      clipVideoBranch q env decodedIdentifier
        (parseFloat (q.startTime.getD "")) (parseFloat (q.endTime.getD ""))

/-- Terminal event of a spawned subprocess: `close` with an exit code,
or the `error` event (failure to spawn). -/
inductive ProcExit
  | closed (code : Int)
  | spawnError (msg : String)
deriving DecidableEq

/-- Result of an HTTP GET as seen by the download promises: a response
with a status code, or the request's `error` event. -/
inductive NetResult
  | response (status : Nat)
  | netError (msg : String)
deriving DecidableEq

/-- Whether an `Except` is a success. -/
def exOk {ε α : Type} : Except ε α → Bool
  | .ok _ => true
  | .error _ => false

/-- The yt-dlp `close` handler ([server.js:150-173]): on exit code 0
the `.mp4`-suffixed candidate is probed with `fs.access`, then the bare
temp path; success resolves with whichever exists, anything else
rejects.  `fs` is the set of paths existing on disk. -/
def ytdlpCloseResult (code : Int) (mp4Path barePath : String) (fs : Finset String) :
    Except String String :=
  if code = 0 then
    if mp4Path ∈ fs then .ok mp4Path
    else if barePath ∈ fs then .ok barePath
    else .error ("yt-dlp download succeeded but output file " ++ mp4Path ++ " or " ++
      barePath ++ " not found.")
  else .error ("yt-dlp download failed with code " ++ toString code)

/-- The whole yt-dlp download promise ([server.js:139-175]): the
`error` event rejects, the `close` event is handled by
`ytdlpCloseResult`. -/
def ytdlpDownload (out : ProcExit) (mp4Path barePath : String) (fs : Finset String) :
    Except String String :=
  match out with
  | .closed code => ytdlpCloseResult code mp4Path barePath fs
  | .spawnError msg => .error ("Failed to spawn yt-dlp for download: " ++ msg)

/-- The direct-URL download promise ([server.js:177-192]):
`fs.createWriteStream(dest)` creates the file, then a non-200 status or
a request error unlinks it and rejects; a 200 response resolves with
the file in place.  Returns the promise outcome and the resulting file
system. -/
def directDownload (dest : String) (r : NetResult) (fs : Finset String) :
    Except String Unit × Finset String :=
  let fs1 := insert dest fs
  match r with
  | .response code =>
    if code = 200 then (.ok (), fs1)
    else (.error ("Failed to download direct URL: Status Code " ++ toString code), fs1.erase dest)
  | .netError msg => (.error msg, fs1.erase dest)

/-- The Supabase download promise ([server.js:196-221]): first the
signed-URL round trip (its failure rejects before any file is
created), then the same streaming GET as the direct branch. -/
def supabaseDownload (dest : String) (signed : Except String String) (r : NetResult)
    (fs : Finset String) : Except String Unit × Finset String :=
  match signed with
  | .error e => (.error ("Supabase download failed: " ++ e), fs)
  | .ok _ =>
    let fs1 := insert dest fs
    match r with
    | .response code =>
      if code = 200 then (.ok (), fs1)
      else (.error ("Failed to download from Supabase URL: Status Code " ++ toString code),
        fs1.erase dest)
    | .netError msg => (.error msg, fs1.erase dest)

/-- One iteration of the cleanup loop body ([server.js:273-282]): stat
the path and unlink only when it exists; an absent file is tolerated
(the `catch(() => false)` / inner `try`). -/
def deleteIfExists (fs : Finset String) (p : String) : Finset String :=
  if p ∈ fs then fs.erase p else fs

/-- The cleanup block shared by the three exit paths
([server.js:264-283], [server.js:300-315], [server.js:323-341]): the
candidate list is `[videoSourcePathForFFmpeg]` plus
`tempInputDownloadPath` when set and different. -/
def cleanupTempFiles (videoSource tempBase : String) (fs : Finset String) : Finset String :=
  (videoSource :: (if tempBase ≠ "" ∧ videoSource ≠ tempBase then [tempBase] else [])).foldl
    deleteIfExists fs

/-- The ffmpeg `close` handler ([server.js:261-295]): cleanup when the
source was a temp download, then a 500 JSON error if the exit code is
nonzero and headers were not sent. -/
def onFfmpegClose (code : Int) (cleanupDownloadFiles : Bool) (videoSource tempBase : String)
    (fs : Finset String) : Finset String × Option Resp :=
  ((if cleanupDownloadFiles then cleanupTempFiles videoSource tempBase fs else fs),
   if code ≠ 0 then
     some ⟨500, .json ("FFmpeg clipping failed with code " ++ toString code ++ ". Check server logs.")⟩
   else none)

/-- The ffmpeg `error` (spawn failure) handler ([server.js:298-319]). -/
def onFfmpegSpawnError (cleanupDownloadFiles : Bool) (videoSource tempBase : String)
    (fs : Finset String) : Finset String × Option Resp :=
  ((if cleanupDownloadFiles then cleanupTempFiles videoSource tempBase fs else fs),
   some ⟨500, .json "Server error: Failed to start clipping process."⟩)

/-- The outer catch around the download promise ([server.js:321-345]). -/
def onDownloadError (msg : String) (cleanupDownloadFiles : Bool) (videoSource tempBase : String)
    (fs : Finset String) : Finset String × Option Resp :=
  ((if cleanupDownloadFiles then cleanupTempFiles videoSource tempBase fs else fs),
   some ⟨500, .json ("Processing failed: " ++ msg)⟩)

/-- Observable actions of the success path after the download resolves
([server.js:235-253]): header writes, the subprocess spawn, and the
piping of its stdout into the response body. -/
inductive SrvAction
  | setHeader (k v : String)
  | spawnProc (cmd : String) (args : List String)
  | pipeBody
deriving DecidableEq

/-- The ffmpeg argument vector ([server.js:239-248]). -/
def ffmpegArgs (src : String) (s e : JSNum) : List String :=
  ["-i", src,
   "-ss", numToString s,
   "-to", numToString e,
   "-c", "copy",
   "-avoid_negative_ts", "make_zero",
   "-movflags", "frag_keyframe+empty_moov",
   "-f", "mp4",
   "pipe:1"]

/-- The action sequence of the success path ([server.js:235-253]):
`Content-Type` and `X-Clip-Filename` headers are set, ffmpeg is
spawned, and its stdout is piped to the response. -/
def extractionActions (src : String) (s e : JSNum) (fname : String) : List SrvAction :=
  [.setHeader "Content-Type" "video/mp4",
   .setHeader "X-Clip-Filename" fname,
   .spawnProc "ffmpeg" (ffmpegArgs src s e),
   .pipeBody]

/-- The YouTube-URL test of download-video.js ([part_001:206-208]). -/
def isYouTubeURL (url : String) : Bool :=
  includesSubstr url "youtube.com/" || includesSubstr url "youtu.be/"

/-- The capture of the regex `[?&]v=([^&]+)|youtu\.be\/([^?&]+)`
([part_001:189-190]): at each position, first a `?v=`/`&v=` parameter
value (up to `&`), else a `youtu.be/` path segment (up to `?`/`&`);
empty captures do not match. -/
def findVideoId : List Char → Option String
  | [] => none
  | c :: rest =>
    if (c = '?' ∨ c = '&') && ['v', '='].isPrefixOf rest then
      (if (rest.drop 2).takeWhile (· ≠ '&') ≠ [] then
        some (String.mk ((rest.drop 2).takeWhile (· ≠ '&')))
      else findVideoId rest)
    else if "youtu.be/".data.isPrefixOf (c :: rest) then
      (if (rest.drop 8).takeWhile (fun x => x ≠ '?' ∧ x ≠ '&') ≠ [] then
        some (String.mk ((rest.drop 8).takeWhile (fun x => x ≠ '?' ∧ x ≠ '&')))
      else findVideoId rest)
    else findVideoId rest

/-- Characters admitted by the sanitization regex `[^a-zA-Z0-9_.-]`
([part_001:201]). -/
def allowedFilenameChar (c : Char) : Bool :=
  ('a' ≤ c && c ≤ 'z') || ('A' ≤ c && c ≤ 'Z') || ('0' ≤ c && c ≤ '9') ||
    c = '_' || c = '.' || c = '-'

/-- First sanitization pass: `replace(/[^a-zA-Z0-9_.-]/g, '_')`. -/
def sanChar (c : Char) : Char := if allowedFilenameChar c then c else '_'

/-- Second sanitization pass: `replace(/_{2,}/g, '_')` — every maximal
run of two or more underscores becomes a single underscore. -/
def collapseUnderscores : List Char → List Char
  | [] => []
  | [c] => [c]
  | a :: b :: rest =>
    if a = '_' && b = '_' then collapseUnderscores (b :: rest)
    else a :: collapseUnderscores (b :: rest)

/-- The sanitization line of `getFilename` ([part_001:201]). -/
def sanitizeFilename (s : String) : String :=
  String.mk (collapseUnderscores (s.data.map sanChar))

/-- Double-underscore scan used to state the sanitization property. -/
def hasDoubleUnderscore : List Char → Bool
  | a :: b :: rest => (a = '_' && b = '_') || hasDoubleUnderscore (b :: rest)
  | _ => false

/-- JavaScript `String.prototype.split` with a one-character
separator, over character lists. -/
def splitOnCh (sep : Char) : List Char → List (List Char)
  | [] => [[]]
  | c :: rest =>
    if c = sep then [] :: splitOnCh sep rest
    else
      match splitOnCh sep rest with
      | h :: t => (c :: h) :: t
      | [] => [[c]]

/-- `getFilename` of download-video.js before sanitization
([part_001:173-199]).  `now` models `Date.now()`; `urlPathname` models
`new URL(identifier).pathname` (`none` when the URL constructor
throws, which the function catches, keeping the default).  A
`decodeURIComponent` throw is likewise caught, keeping the default. -/
def getFilenameRaw (identifier sourceType : String) (now : Nat) (urlPathname : Option String) :
    String :=
  if sourceType = "supabase" then
    match (splitOnCh '/' identifier.data).getLast? with
    | some last => if last ≠ [] then String.mk last else "video_" ++ toString now ++ ".mp4"
    | none => "video_" ++ toString now ++ ".mp4"
  else if sourceType = "external_url" then
    match urlPathname with
    | none => "video_download_" ++ toString now ++ ".mp4"
    | some pathname =>
      if ((splitOnCh '/' pathname.data).getLast?).getD [] ≠ [] ∧
          (((splitOnCh '/' pathname.data).getLast?).getD []).any (· = '.') = true ∧
          isYouTubeURL identifier = false then
        match decodeURIComponent (String.mk (((splitOnCh '/' pathname.data).getLast?).getD [])) with
        | some d => d
        | none => "video_download_" ++ toString now ++ ".mp4"
      else if isYouTubeURL identifier then
        "youtube_" ++ (match findVideoId identifier.data with
          | some v => v
          | none => toString now) ++ ".mp4"
      else "external_video_" ++ toString now ++ ".mp4"
  else "video_download_" ++ toString now ++ ".mp4"

/-- `getFilename` of download-video.js ([part_001:173-202]): the raw
name followed by the sanitization line. -/
def getFilename (identifier sourceType : String) (now : Nat) (urlPathname : Option String) :
    String :=
  sanitizeFilename (getFilenameRaw identifier sourceType now urlPathname)

/-- JavaScript `String.prototype.trim` from the left, over character
lists. -/
def jsTrimL (l : List Char) : List Char := l.dropWhile jsWS

/-- JavaScript `String.prototype.trim` from the right, over character
lists. -/
def jsTrimR (l : List Char) : List Char := (l.reverse.dropWhile jsWS).reverse

/-- JavaScript `String.prototype.trim`, over character lists. -/
def jsTrim (l : List Char) : List Char := jsTrimR (jsTrimL l)

/-- The backtick character. -/
def btick : Char := Char.ofNat 96

/-- The opening token of a JSON Markdown fence. -/
def fenceJson : List Char := "```json".data

/-- A bare Markdown fence. -/
def fence : List Char := "```".data

/-- [part_000:186-190]: strip a leading ```` ```json ```` (else a
leading ```` ``` ````) from the trimmed text. -/
def stripLeadingFence (t : List Char) : List Char :=
  if fenceJson.isPrefixOf t then t.drop fenceJson.length
  else if fence.isPrefixOf t then t.drop fence.length
  else t

/-- [part_000:191-193]: strip a trailing ```` ``` ````. -/
def stripTrailingFence (t : List Char) : List Char :=
  if fence.isSuffixOf t then t.take (t.length - fence.length) else t

/-- The Markdown-fence cleanup applied to the Gemini response text
before `JSON.parse` ([part_000:183-196]): trim, strip a leading
```` ```json ```` or ```` ``` ````, strip a trailing ```` ``` ````,
trim again. -/
def stripFences (highlightsText : List Char) : List Char :=
  jsTrim (stripTrailingFence (stripLeadingFence (jsTrim highlightsText)))

/-- Dynamic JSON value, the result type of `JSON.parse`. -/
inductive JVal
  | jnull
  | jbool (b : Bool)
  | jnum (n : Int)
  | jstr (s : String)
  | jarr (elems : List JVal)
  | jobj (fields : List (String × JVal))

/-- Key lookup in a JSON object field list. -/
def lookupField : List (String × JVal) → String → Option JVal
  | [], _ => none
  | (k, v) :: rest, key => if k = key then some v else lookupField rest key

/-- Key lookup on a JSON value (objects only). -/
def objGet : JVal → String → Option JVal
  | .jobj fields, key => lookupField fields key
  | _, _ => none

/-- The success response body of the process-video function
([part_000:244-252]): the parsed `initialClips` value is embedded in
the response object exactly as `JSON.parse` produced it. -/
def processVideoSuccessResponse (initialClips : JVal)
    (originalPathOrUrl processedVideoSourceType : String) : JVal :=
  .jobj [("message", .jstr "Analysis complete"),
         ("initialClips", initialClips),
         ("processedVideoDetails", .jobj
           [("pathOrUrl", .jstr originalPathOrUrl),
            ("sourceType", .jstr processedVideoSourceType)])]

/-- The two offsets carried into the extraction stage, when reached. -/
def outTimes : HandlerOut → Option (JSNum × JSNum)
  | .extractLocal _ s e _ => some (s, e)
  | .extractDownload _ _ _ s e _ => some (s, e)
  | _ => none

example : parseFloat "10" = .fin ⟨10, 1⟩ := by decide

example : parseFloat "Infinity" = .posInf := by decide

example : parseFloat "abc" = .nan := by decide

example : parseFloat "-3.5" = .fin ⟨-35, 10⟩ := by decide

example : parseFloat "12abc" = .fin ⟨12, 1⟩ := by decide

example : parseFloat "" = .nan := by decide

example : numToString (.fin ⟨10, 1⟩) = "10" := by decide

example : numToString (.fin ⟨105, 10⟩) = "10.5" := by decide

example : numToString (.fin ⟨-35, 10⟩) = "-3.5" := by decide

example : numToString .posInf = "Infinity" := by decide

example : jsLe (parseFloat "Infinity") (parseFloat "0") = false := by decide

example : decodeURIComponent "a%20b" = some "a b" := by decide

example : decodeURIComponent "%" = none := by decide

example : decodeURIComponent "a%.mp4" = none := by decide

example : decodeURIComponent "%C3%A9" = some "é" := by decide

example : decodeURIComponent "%FF" = none := by decide

example : extname "clip_source.mp4" = ".mp4" := by decide

example : extname "archive.tar.gz" = ".gz" := by decide

example : extname ".bashrc" = "" := by decide

example : basenameExt "clip_source.mp4" (extname "clip_source.mp4") = "clip_source" := by decide

example : basenameExt "a/b/video.webm" ".webm" = "video" := by decide

example :
    (clipVideoHandler ⟨none, none, some "20", some "10", some "a.mp4"⟩ ⟨"u", true, true⟩).2 =
      .resp ⟨400, .json "Invalid startTime or endTime parameters."⟩ := by decide

example :
    (clipVideoHandler ⟨none, none, some "10", some "20", some "clip_source.mp4"⟩ ⟨"u", true, true⟩).2 =
      .extractLocal "/data/host_downloads/clip_source.mp4" (parseFloat "10") (parseFloat "20")
        "clip_clip_source_10-20.mp4" := by decide

example :
    (clipVideoHandler ⟨some "%", some "external_url", some "10", some "20", some "a.mp4"⟩ ⟨"u", true, true⟩).2 =
      .thrown := by decide

example :
    (clipVideoHandler ⟨none, none, some "0", some "Infinity", some "a.mp4"⟩ ⟨"u", true, true⟩).2 =
      .extractLocal "/data/host_downloads/a.mp4" (.fin ⟨0, 1⟩) .posInf "clip_a_0-Infinity.mp4" := by decide

example : getFilename "folder/My Video (1).mp4" "supabase" 0 none = "My_Video_1_.mp4" := by decide

example :
    getFilename "https://youtu.be/dQw4w9WgXcQ" "external_url" 7 (some "/dQw4w9WgXcQ") =
      "youtube_dQw4w9WgXcQ.mp4" := by decide

example : getFilename "::::" "external_url" 3 none = "video_download_3.mp4" := by decide

example : stripFences "```json\n[1, 2]\n```".data = "[1, 2]".data := by decide

example : stripFences "  [1, 2] ".data = "[1, 2]".data := by decide

theorem mem_deleteIfExists (fs : Finset String) (p a : String) :
    a ∈ deleteIfExists fs p ↔ a ∈ fs ∧ a ≠ p := by
  unfold deleteIfExists
  by_cases hp : p ∈ fs
  · simp only [hp, if_true, Finset.mem_erase]
    constructor
    · exact fun h => ⟨h.2, h.1⟩
    · exact fun h => ⟨h.2, h.1⟩
  · simp only [hp, if_false]
    constructor
    · intro h
      exact ⟨h, fun he => hp (he ▸ h)⟩
    · exact fun h => h.1

theorem mem_cleanupTempFiles (videoSource tempBase : String) (fs : Finset String) (a : String)
    (htb : tempBase ≠ "") :
    a ∈ cleanupTempFiles videoSource tempBase fs ↔ a ∈ fs ∧ a ≠ videoSource ∧ a ≠ tempBase := by
  unfold cleanupTempFiles
  by_cases hvs : videoSource = tempBase
  · simp only [htb, hvs, ne_eq, not_true_eq_false, and_false, if_false, List.foldl_cons,
      List.foldl_nil, mem_deleteIfExists]
    subst hvs
    tauto
  · simp only [htb, hvs, ne_eq, not_false_eq_true, and_self, if_true, List.foldl_cons,
      List.foldl_nil, mem_deleteIfExists]
    tauto

/-- C1 (amended): on each of the three exit paths (ffmpeg close with
any exit code, ffmpeg spawn error, download failure) of a request with
`cleanupDownloadFiles = true`, the cleanup block runs; it attempts
deletion of exactly the two candidate paths (the `.mp4`-suffixed temp
path and the bare temp path), tolerates their absence, and afterwards
neither candidate exists while no other file is touched.  Artifacts
the downloader may have created under other names are not deleted. -/
theorem C1_cleanup_amended (videoSource tempBase : String) (fs : Finset String) (code : Int)
    (msg : String) (htb : tempBase ≠ "") :
    ((onFfmpegClose code true videoSource tempBase fs).1 =
        cleanupTempFiles videoSource tempBase fs ∧
      (onFfmpegSpawnError true videoSource tempBase fs).1 =
        cleanupTempFiles videoSource tempBase fs ∧
      (onDownloadError msg true videoSource tempBase fs).1 =
        cleanupTempFiles videoSource tempBase fs) ∧
    videoSource ∉ cleanupTempFiles videoSource tempBase fs ∧
    tempBase ∉ cleanupTempFiles videoSource tempBase fs ∧
    cleanupTempFiles videoSource tempBase fs ⊆ fs ∧
    (∀ p ∈ fs, p ≠ videoSource → p ≠ tempBase → p ∈ cleanupTempFiles videoSource tempBase fs) := by
  refine ⟨⟨rfl, rfl, rfl⟩, ?_, ?_, ?_, ?_⟩
  · intro h
    exact ((mem_cleanupTempFiles _ _ _ _ htb).mp h).2.1 rfl
  · intro h
    exact ((mem_cleanupTempFiles _ _ _ _ htb).mp h).2.2 rfl
  · intro p hp
    exact ((mem_cleanupTempFiles _ _ _ _ htb).mp hp).1
  · intro p hp h1 h2
    exact (mem_cleanupTempFiles _ _ _ _ htb).mpr ⟨hp, h1, h2⟩

/-- C1 (witness): a concrete application of the amended cleanup
theorem. -/
theorem C1_cleanup_witness :
    "tmp/input_ab12.tmp.mp4" ∉
      cleanupTempFiles "tmp/input_ab12.tmp.mp4" "tmp/input_ab12.tmp"
        {"tmp/input_ab12.tmp.mp4", "tmp/input_ab12.tmp", "other.mp4"} :=
  (C1_cleanup_amended "tmp/input_ab12.tmp.mp4" "tmp/input_ab12.tmp"
    {"tmp/input_ab12.tmp.mp4", "tmp/input_ab12.tmp", "other.mp4"} 0 "m" (by decide)).2.1

/-- C1 (counterexample): after the ffmpeg-close cleanup of a temporary
download, a downloader artifact named under the same random identifier
but with a different extension (the source comments name `.webm` as a
possibility, [server.js:271-272]) survives on disk, so the claim that
no temp file bearing the request's identifier remains is false. -/
theorem C1_counterexample :
    (onFfmpegClose 0 true "tmp/input_deadbeef.tmp.mp4" "tmp/input_deadbeef.tmp"
        {"tmp/input_deadbeef.tmp.webm"}).1 = {"tmp/input_deadbeef.tmp.webm"} ∧
    includesSubstr "tmp/input_deadbeef.tmp.webm" "deadbeef" = true := by
  constructor
  · decide
  · decide

/-- C4: the yt-dlp download step succeeds exactly when the subprocess
closes with exit code 0 and at least one of the two candidate output
paths (the `.mp4`-suffixed temp path, probed first, or the bare temp
path) exists on disk; a nonzero exit code, a spawn error, or both
candidates missing all fail the step. -/
theorem C4_ytdlp_success_iff (out : ProcExit) (mp4Path barePath : String) (fs : Finset String) :
    exOk (ytdlpDownload out mp4Path barePath fs) = true ↔
      out = .closed 0 ∧ (mp4Path ∈ fs ∨ barePath ∈ fs) := by
  cases out with
  | closed code =>
    unfold ytdlpDownload ytdlpCloseResult
    by_cases h0 : code = 0
    · subst h0
      by_cases h1 : mp4Path ∈ fs
      · simp [h1, exOk]
      · by_cases h2 : barePath ∈ fs <;> simp [h1, h2, exOk]
    · simp [h0, exOk, fun h => h0 (ProcExit.closed.inj h)]
  | spawnError m => simp [ytdlpDownload, exOk]

/-- C5: for the direct-URL and Supabase download branches, a non-200
response status or a request error fails the download promise and
leaves the file system as it was — the partially created temp file is
unlinked — and (for Supabase) a signed-URL failure fails before any
file is created; success occurs exactly on a 200 response (with, for
Supabase, a successful signed URL). -/
theorem C5_download_atomicity (dest : String) (r : NetResult) (signed : Except String String)
    (fs : Finset String) (hdest : dest ∉ fs) :
    (exOk (directDownload dest r fs).1 = false → (directDownload dest r fs).2 = fs) ∧
    (exOk (directDownload dest r fs).1 = true ↔ r = .response 200) ∧
    (exOk (supabaseDownload dest signed r fs).1 = false →
      (supabaseDownload dest signed r fs).2 = fs) ∧
    (exOk (supabaseDownload dest signed r fs).1 = true ↔
      exOk signed = true ∧ r = .response 200) := by
  have herase : (insert dest fs).erase dest = fs := Finset.erase_insert hdest
  refine ⟨?_, ?_, ?_, ?_⟩ <;>
    cases r with
    | response code =>
      cases signed with
      | ok u =>
        by_cases hc : code = 200 <;>
          simp_all [directDownload, supabaseDownload, exOk, NetResult.response.injEq]
      | error u =>
        by_cases hc : code = 200 <;>
          simp_all [directDownload, supabaseDownload, exOk, NetResult.response.injEq]
    | netError msg =>
      cases signed with
      | ok u => simp_all [directDownload, supabaseDownload, exOk]
      | error u => simp_all [directDownload, supabaseDownload, exOk]

/-- C5 (witness): a concrete application — a network error during a
direct download leaves no partial artifact behind. -/
theorem C5_download_atomicity_witness :
    (directDownload "tmp/input_ff00.tmp.mp4" (.netError "socket hang up") ∅).2 = ∅ :=
  (C5_download_atomicity "tmp/input_ff00.tmp.mp4" (.netError "socket hang up") (.ok "u") ∅
    (by decide)).1 (by decide)

/-- C6: the extraction step spawns exactly one subprocess, and it is
`ffmpeg` with exactly the argument vector: input path, `-ss start`,
`-to end`, `-c copy` (stream copy, no re-encode), `-avoid_negative_ts
make_zero`, `-movflags frag_keyframe+empty_moov`, `-f mp4`, and
`pipe:1` (standard output). -/
theorem C6_ffmpeg_invocation (src : String) (s e : JSNum) (fname : String) :
    (SrvAction.spawnProc "ffmpeg"
        ["-i", src, "-ss", numToString s, "-to", numToString e, "-c", "copy",
         "-avoid_negative_ts", "make_zero", "-movflags", "frag_keyframe+empty_moov",
         "-f", "mp4", "pipe:1"] ∈ extractionActions src s e fname) ∧
    (∀ cmd args, SrvAction.spawnProc cmd args ∈ extractionActions src s e fname →
      cmd = "ffmpeg" ∧
      args = ["-i", src, "-ss", numToString s, "-to", numToString e, "-c", "copy",
        "-avoid_negative_ts", "make_zero", "-movflags", "frag_keyframe+empty_moov",
        "-f", "mp4", "pipe:1"]) := by
  constructor
  · simp [extractionActions, ffmpegArgs]
  · intro cmd args h
    simp only [extractionActions, ffmpegArgs, List.mem_cons, List.mem_singleton] at h
    rcases h with h | h | h | h <;> simp_all

/-- C6 (witness): a concrete application of the invocation theorem. -/
theorem C6_ffmpeg_invocation_witness :
    (SrvAction.spawnProc "ffmpeg"
        ["-i", "/data/host_downloads/clip_source.mp4", "-ss", numToString (.fin ⟨10, 1⟩),
         "-to", numToString (.fin ⟨20, 1⟩), "-c", "copy", "-avoid_negative_ts", "make_zero",
         "-movflags", "frag_keyframe+empty_moov", "-f", "mp4", "pipe:1"] ∈
      extractionActions "/data/host_downloads/clip_source.mp4" (.fin ⟨10, 1⟩) (.fin ⟨20, 1⟩)
        "clip_clip_source_10-20.mp4") ∧
    ("ffmpeg" = "ffmpeg" ∧
      ffmpegArgs "/data/host_downloads/clip_source.mp4" (.fin ⟨10, 1⟩) (.fin ⟨20, 1⟩) =
        ["-i", "/data/host_downloads/clip_source.mp4", "-ss", numToString (.fin ⟨10, 1⟩),
         "-to", numToString (.fin ⟨20, 1⟩), "-c", "copy", "-avoid_negative_ts", "make_zero",
         "-movflags", "frag_keyframe+empty_moov", "-f", "mp4", "pipe:1"]) :=
  ⟨(C6_ffmpeg_invocation "/data/host_downloads/clip_source.mp4" (.fin ⟨10, 1⟩) (.fin ⟨20, 1⟩)
      "clip_clip_source_10-20.mp4").1,
   (C6_ffmpeg_invocation "/data/host_downloads/clip_source.mp4" (.fin ⟨10, 1⟩) (.fin ⟨20, 1⟩)
      "clip_clip_source_10-20.mp4").2 "ffmpeg"
     (ffmpegArgs "/data/host_downloads/clip_source.mp4" (.fin ⟨10, 1⟩) (.fin ⟨20, 1⟩))
     (by simp [extractionActions])⟩

theorem passingBounds (s e : JSNum) (hs : s.isNaN = false) (he : e.isNaN = false)
    (h1 : jsLt s (.fin ⟨0, 1⟩) = false) (h2 : jsLe e s = false) :
    jsLe (.fin ⟨0, 1⟩) s = true ∧ jsLt s e = true ∧ s.isFinite = true ∧
      (e.isFinite = true ∨ e = .posInf) := by
  cases s with
  | nan => simp [JSNum.isNaN] at hs
  | posInf =>
    cases e <;> simp_all [jsLt, jsLe, JSNum.isNaN]
  | negInf => simp [jsLt] at h1
  | fin a =>
    have hq : Q.leb ⟨0, 1⟩ a = true := by
      simp only [jsLt, Q.ltb, decide_eq_false_iff_not, not_lt] at h1
      simp only [Q.leb, decide_eq_true_eq]
      simpa using h1
    cases e with
    | nan => simp [JSNum.isNaN] at he
    | posInf => simp [jsLt, jsLe, JSNum.isFinite, hq]
    | negInf => simp [jsLe] at h2
    | fin b =>
      have hlt : Q.ltb a b = true := by
        simp only [jsLe, Q.leb, decide_eq_false_iff_not, not_le] at h2
        simp only [Q.ltb, decide_eq_true_eq]
        exact h2
      simp [jsLe, jsLt, JSNum.isFinite, hq, hlt]

theorem clipVideoBranch_outTimes (q : ClipQuery) (env : Env) (d : Option String)
    (s0 e0 s e : JSNum) (h : outTimes (clipVideoBranch q env d s0 e0).2 = some (s, e)) :
    s = s0 ∧ e = e0 := by
  unfold clipVideoBranch at h
  repeat' split at h
  all_goals simp_all [outTimes]

theorem handler_outTimes (q : ClipQuery) (env : Env) (s e : JSNum)
    (h : outTimes (clipVideoHandler q env).2 = some (s, e)) :
    s = parseFloat (q.startTime.getD "") ∧ e = parseFloat (q.endTime.getD "") ∧
    (parseFloat (q.startTime.getD "")).isNaN = false ∧
    (parseFloat (q.endTime.getD "")).isNaN = false ∧
    jsLt (parseFloat (q.startTime.getD "")) (JSNum.fin ⟨0, 1⟩) = false ∧
    jsLe (parseFloat (q.endTime.getD "")) (parseFloat (q.startTime.getD "")) = false := by
  unfold clipVideoHandler at h
  split at h
  · simp [outTimes] at h
  split at h
  · simp [outTimes] at h
  split at h
  · simp [outTimes] at h
  rename_i hg3
  simp only [Bool.or_eq_true, not_or, Bool.not_eq_true] at hg3
  obtain ⟨⟨⟨hs, he⟩, hlt⟩, hle⟩ := hg3
  split at h
  · simp [outTimes] at h
  obtain ⟨h1, h2⟩ := clipVideoBranch_outTimes _ _ _ _ _ _ _ h
  exact ⟨h1, h2, hs, he, hlt, hle⟩

/-- C2 (amended): a request whose `startTime`/`endTime` is missing,
parses to NaN, is negative, or has `endTime <= startTime` receives
HTTP 400 with no filesystem, network, or subprocess effect; every
request that instead reaches the extraction stage satisfies
`0 <= startTime < endTime` with `startTime` finite — but `endTime` may
be `+Infinity` (`parseFloat("Infinity")` passes the validation), so
finiteness of both offsets is not guaranteed. -/
theorem C2_validation_amended :
    (∀ q env, (q.startTime = none ∨ q.endTime = none ∨
        (parseFloat (q.startTime.getD "")).isNaN = true ∨
        (parseFloat (q.endTime.getD "")).isNaN = true ∨
        jsLt (parseFloat (q.startTime.getD "")) (JSNum.fin ⟨0, 1⟩) = true ∨
        jsLe (parseFloat (q.endTime.getD "")) (parseFloat (q.startTime.getD "")) = true) →
      (clipVideoHandler q env).1 = [] ∧
      ∃ msg, (clipVideoHandler q env).2 = .resp ⟨400, .json msg⟩) ∧
    (∀ q env s e, outTimes (clipVideoHandler q env).2 = some (s, e) →
      jsLe (JSNum.fin ⟨0, 1⟩) s = true ∧ jsLt s e = true ∧ s.isFinite = true ∧
      (e.isFinite = true ∨ e = .posInf)) := by
  constructor
  · intro q env h
    unfold clipVideoHandler
    split
    · exact ⟨rfl, _, rfl⟩
    split
    · exact ⟨rfl, _, rfl⟩
    split
    · exact ⟨rfl, _, rfl⟩
    rename_i hg1 hg2 hg3
    exfalso
    simp only [Bool.or_eq_true, not_or, Bool.not_eq_true, not_exists] at hg3
    obtain ⟨⟨⟨hs, he⟩, hlt⟩, hle⟩ := hg3
    rcases h with h | h | h | h | h | h
    · exact hg1 (Or.inl h)
    · exact hg1 (Or.inr h)
    · exact absurd h (by simp [hs])
    · exact absurd h (by simp [he])
    · exact absurd h (by simp [hlt])
    · exact absurd h (by simp [hle])
  · intro q env s e h
    obtain ⟨h1, h2, hs, he, hlt, hle⟩ := handler_outTimes q env s e h
    subst h1
    subst h2
    exact passingBounds _ _ hs he hlt hle

/-- C2 (witness): scenario C — `startTime=20, endTime=10` is rejected
with 400 and no effects. -/
theorem C2_validation_witness :
    (clipVideoHandler ⟨none, none, some "20", some "10", some "a.mp4"⟩ ⟨"u", true, true⟩).1 = [] ∧
    ∃ msg, (clipVideoHandler ⟨none, none, some "20", some "10", some "a.mp4"⟩
      ⟨"u", true, true⟩).2 = .resp ⟨400, .json msg⟩ :=
  C2_validation_amended.1 ⟨none, none, some "20", some "10", some "a.mp4"⟩ ⟨"u", true, true⟩
    (Or.inr (Or.inr (Or.inr (Or.inr (Or.inr (by decide))))))

/-- C2 (counterexample): the request `startTime=0, endTime=Infinity`
(with a present local file) passes validation and reaches the
extraction stage even though `endTime` is not finite, refuting the
claim that non-finite offsets are rejected with 400 before any I/O and
that validated offsets are both finite. -/
theorem C2_counterexample :
    (clipVideoHandler ⟨none, none, some "0", some "Infinity", some "a.mp4"⟩
        ⟨"u", true, true⟩).2 =
      .extractLocal "/data/host_downloads/a.mp4" (.fin ⟨0, 1⟩) .posInf "clip_a_0-Infinity.mp4" ∧
    JSNum.isFinite .posInf = false := by
  constructor
  · decide
  · decide

theorem clipVideoBranch_resp (q : ClipQuery) (env : Env) (d : Option String) (s e : JSNum)
    (l : List IOEff) (r : Resp) (h : clipVideoBranch q env d s e = (l, .resp r)) :
    (r.status = 400 ∨ r.status = 404 ∨ r.status = 500) ∧
    (r.status = 404 → isJsonBody r.body = false) ∧
    (r.status ≠ 404 → isJsonBody r.body = true) := by
  unfold clipVideoBranch at h
  repeat' split at h
  all_goals simp only [Prod.mk.injEq] at h
  all_goals obtain ⟨h1, h2⟩ := h
  all_goals
    first
      | exact HandlerOut.noConfusion h2
      | (have h3 := HandlerOut.resp.inj h2; subst h3; simp [isJsonBody])

theorem clipVideoHandler_resp (q : ClipQuery) (env : Env) (l : List IOEff) (r : Resp)
    (h : clipVideoHandler q env = (l, .resp r)) :
    (r.status = 400 ∨ r.status = 404 ∨ r.status = 500) ∧
    (r.status = 404 → isJsonBody r.body = false) ∧
    (r.status ≠ 404 → isJsonBody r.body = true) := by
  unfold clipVideoHandler at h
  split at h
  · obtain ⟨h1, h2⟩ := Prod.mk.injEq .. ▸ h
    have h3 := HandlerOut.resp.inj h2
    subst h3
    simp [isJsonBody]
  split at h
  · obtain ⟨h1, h2⟩ := Prod.mk.injEq .. ▸ h
    have h3 := HandlerOut.resp.inj h2
    subst h3
    simp [isJsonBody]
  split at h
  · obtain ⟨h1, h2⟩ := Prod.mk.injEq .. ▸ h
    have h3 := HandlerOut.resp.inj h2
    subst h3
    simp [isJsonBody]
  split at h
  · obtain ⟨h1, h2⟩ := Prod.mk.injEq .. ▸ h
    exact HandlerOut.noConfusion h2
  · exact clipVideoBranch_resp _ _ _ _ _ _ _ h

/-- C3 (amended): every pre-streaming failure response of
`/api/clip-video` carries status 400, 404, or 500; the 400 and 500
responses (including the download-failure, spawn-failure and
ffmpeg-failure responders) have JSON `{ "error": ... }` bodies, but
the 404 local-file-not-found response is sent as a plain-text body via
`res.send`, not JSON. -/
theorem C3_responses_amended :
    (∀ q env l r, clipVideoHandler q env = (l, .resp r) →
      (r.status = 400 ∨ r.status = 404 ∨ r.status = 500) ∧
      (r.status = 404 → isJsonBody r.body = false) ∧
      (r.status ≠ 404 → isJsonBody r.body = true)) ∧
    (∀ msg flag vs tb fs, (onDownloadError msg flag vs tb fs).2 =
      some ⟨500, .json ("Processing failed: " ++ msg)⟩) ∧
    (∀ flag vs tb fs, (onFfmpegSpawnError flag vs tb fs).2 =
      some ⟨500, .json "Server error: Failed to start clipping process."⟩) ∧
    (∀ code flag vs tb fs, code ≠ 0 → (onFfmpegClose code flag vs tb fs).2 =
      some ⟨500, .json ("FFmpeg clipping failed with code " ++ toString code ++
        ". Check server logs.")⟩) := by
  refine ⟨clipVideoHandler_resp, fun msg flag vs tb fs => rfl, fun flag vs tb fs => rfl,
    fun code flag vs tb fs hc => ?_⟩
  simp [onFfmpegClose, hc]

/-- C3 (witness): a concrete application — the missing-parameters
request yields a 400 JSON error. -/
theorem C3_responses_witness :
    ((Resp.mk 400 (.json "Missing required query parameters: startTime, endTime")).status = 400 ∨
      (Resp.mk 400 (.json "Missing required query parameters: startTime, endTime")).status = 404 ∨
      (Resp.mk 400 (.json "Missing required query parameters: startTime, endTime")).status = 500) ∧
    ((Resp.mk 400 (.json "Missing required query parameters: startTime, endTime")).status = 404 →
      isJsonBody (Resp.mk 400 (.json "Missing required query parameters: startTime, endTime")).body = false) ∧
    ((Resp.mk 400 (.json "Missing required query parameters: startTime, endTime")).status ≠ 404 →
      isJsonBody (Resp.mk 400 (.json "Missing required query parameters: startTime, endTime")).body = true) :=
  C3_responses_amended.1 ⟨none, none, none, none, none⟩ ⟨"u", true, true⟩ []
    ⟨400, .json "Missing required query parameters: startTime, endTime"⟩ (by decide)

/-- C3 (counterexample): the local-file-not-found failure responds
with 404 and a plain-text body (`res.status(404).send(...)`,
[server.js:127]), not the JSON `{ "error": ... }` shape the claim
asserts for all pre-streaming failures. -/
theorem C3_counterexample :
    (clipVideoHandler ⟨none, none, some "10", some "20", some "a.mp4"⟩ ⟨"u", false, true⟩).2 =
      .resp ⟨404, .text "Error: Local file a.mp4 not found or not accessible in the mapped directory."⟩ ∧
    isJsonBody (.text "Error: Local file a.mp4 not found or not accessible in the mapped directory.") = false := by
  constructor
  · decide
  · decide

/-- C7 (amended): for a request supplying a nonempty `inputFileName`
together with `identifier` and `sourceType`, the handler behaves
identically to the same request with `identifier` and `sourceType`
omitted — `inputFileName` wins by branch ordering and no download
occurs — provided the supplied identifier survives
`decodeURIComponent`; the decode at [server.js:102] runs regardless of
the chosen branch, so a malformed identifier still throws. -/
theorem C7_precedence_amended (i st f : String) (stt ett : Option String) (env : Env)
    (d : String) (hdec : decodeURIComponent i = some d) (hf : f ≠ "") :
    clipVideoHandler ⟨some i, some st, stt, ett, some f⟩ env =
      clipVideoHandler ⟨none, none, stt, ett, some f⟩ env := by
  have htr : truthy (some f) = true := by simp [truthy, hf]
  by_cases h1 : stt = none ∨ ett = none
  · simp [clipVideoHandler, h1]
  · by_cases h3 : ((parseFloat (stt.getD "")).isNaN || (parseFloat (ett.getD "")).isNaN ||
        jsLt (parseFloat (stt.getD "")) (JSNum.fin ⟨0, 1⟩) ||
        jsLe (parseFloat (ett.getD "")) (parseFloat (stt.getD ""))) = true
    · simp [clipVideoHandler, h1, h3, htr]
    · by_cases hi : i = ""
      · subst hi
        simp [clipVideoHandler, h1, h3, htr, hf, decodeIdentifierStep, truthy,
          clipVideoBranch, mkClipFilename]
      · simp [clipVideoHandler, h1, h3, htr, hf, decodeIdentifierStep, truthy, hi, hdec,
          clipVideoBranch, mkClipFilename]

/-- C7 (witness): a concrete application with a well-formed
identifier: supplying `identifier`/`sourceType` alongside
`inputFileName` changes nothing. -/
theorem C7_precedence_witness :
    clipVideoHandler ⟨some "a%20b", some "external_url", some "10", some "20", some "in.mp4"⟩
        ⟨"u", true, true⟩ =
      clipVideoHandler ⟨none, none, some "10", some "20", some "in.mp4"⟩ ⟨"u", true, true⟩ :=
  C7_precedence_amended "a%20b" "external_url" "in.mp4" (some "10") (some "20")
    ⟨"u", true, true⟩ "a b" (by decide) (by decide)

/-- C7 (counterexample): with the malformed identifier `%` the request
throws in `decodeURIComponent` ([server.js:102]) although
`inputFileName` is present, while the same request without
`identifier`/`sourceType` proceeds to local extraction — the behaviors
differ, refuting the claim as stated. -/
theorem C7_counterexample :
    (clipVideoHandler ⟨some "%", some "external_url", some "10", some "20", some "a.mp4"⟩
        ⟨"u", true, true⟩).2 = .thrown ∧
    (clipVideoHandler ⟨none, none, some "10", some "20", some "a.mp4"⟩ ⟨"u", true, true⟩).2 =
      .extractLocal "/data/host_downloads/a.mp4" (parseFloat "10") (parseFloat "20")
        "clip_a_10-20.mp4" := by
  constructor
  · decide
  · decide

/-- C8: a successful `inputFileName` request reaches the extraction
stage with output filename `clip_<B>_<start>-<end>.mp4`, where `B` is
the extension-stripped basename of `inputFileName` and the offsets are
printed with JavaScript number-to-string conversion; and in the
success action sequence the `X-Clip-Filename` (and `Content-Type`)
header writes precede the piping of any body bytes. -/
theorem C8_clip_filename_header (q : ClipQuery) (env : Env) (f ss es : String)
    (hf : q.inputFileName = some f) (hfne : f ≠ "")
    (hst : q.startTime = some ss) (het : q.endTime = some es)
    (hvalid : ((parseFloat ss).isNaN || (parseFloat es).isNaN ||
      jsLt (parseFloat ss) (JSNum.fin ⟨0, 1⟩) || jsLe (parseFloat es) (parseFloat ss)) = false)
    (hdec : ∀ s, q.identifier = some s → s ≠ "" → ∃ d, decodeURIComponent s = some d)
    (hlocal : env.localOk = true) :
    clipVideoHandler q env =
      ([.fsAccess (HOST_DOWNLOADS_PATH_IN_CONTAINER ++ "/" ++ f)],
       .extractLocal (HOST_DOWNLOADS_PATH_IN_CONTAINER ++ "/" ++ f) (parseFloat ss)
         (parseFloat es)
         ("clip_" ++ basenameExt f (extname f) ++ "_" ++ numToString (parseFloat ss) ++ "-" ++
          numToString (parseFloat es) ++ ".mp4")) ∧
    (∀ src s e fn, ∃ pre post,
      extractionActions src s e fn = pre ++ SrvAction.pipeBody :: post ∧
      SrvAction.setHeader "X-Clip-Filename" fn ∈ pre ∧
      SrvAction.setHeader "Content-Type" "video/mp4" ∈ pre) := by
  constructor
  · have htr : truthy q.inputFileName = true := by simp [truthy, hf, hfne]
    have h1 : ¬ (q.startTime = none ∨ q.endTime = none) := by simp [hst, het]
    have hgetst : q.startTime.getD "" = ss := by simp [hst]
    have hgetet : q.endTime.getD "" = es := by simp [het]
    cases hqi : q.identifier with
    | none =>
      simp [clipVideoHandler, h1, hgetst, hgetet, hvalid, htr, hf, hfne, hqi,
        decodeIdentifierStep, truthy, clipVideoBranch, mkClipFilename, hlocal]
    | some s =>
      by_cases hs : s = ""
      · subst hs
        simp [clipVideoHandler, h1, hgetst, hgetet, hvalid, htr, hf, hfne, hqi,
          decodeIdentifierStep, truthy, clipVideoBranch, mkClipFilename, hlocal]
      · obtain ⟨d, hd⟩ := hdec s hqi hs
        simp [clipVideoHandler, h1, hgetst, hgetet, hvalid, htr, hf, hfne, hqi, hs, hd,
          decodeIdentifierStep, truthy, clipVideoBranch, mkClipFilename, hlocal]
  · intro src s e fn
    exact ⟨[.setHeader "Content-Type" "video/mp4", .setHeader "X-Clip-Filename" fn,
      .spawnProc "ffmpeg" (ffmpegArgs src s e)], [], rfl, by simp, by simp⟩

/-- C8 (witness): scenario A — `inputFileName=clip_source.mp4`,
`startTime=10`, `endTime=20` yields the filename header value
`clip_clip_source_10-20.mp4` on the local extraction path. -/
theorem C8_clip_filename_header_witness :
    clipVideoHandler ⟨none, none, some "10", some "20", some "clip_source.mp4"⟩
        ⟨"u", true, true⟩ =
      ([.fsAccess "/data/host_downloads/clip_source.mp4"],
       .extractLocal "/data/host_downloads/clip_source.mp4" (parseFloat "10") (parseFloat "20")
         "clip_clip_source_10-20.mp4") := by
  have h := (C8_clip_filename_header ⟨none, none, some "10", some "20", some "clip_source.mp4"⟩
    ⟨"u", true, true⟩ "clip_source.mp4" "10" "20" rfl (by decide) rfl rfl (by decide)
    (fun s hs => by cases hs) rfl).1
  rw [h]
  decide

theorem collapseUnderscores_cons (l : List Char) :
    ∀ a, ∃ t, collapseUnderscores (a :: l) = a :: t := by
  induction l with
  | nil => exact fun a => ⟨[], rfl⟩
  | cons b rest ih =>
    intro a
    by_cases h : (a = '_' && b = '_') = true
    · obtain ⟨t, ht⟩ := ih b
      have ha : a = '_' := by
        have := (Bool.and_eq_true _ _).mp h
        exact of_decide_eq_true this.1
      have hb : b = '_' := by
        have := (Bool.and_eq_true _ _).mp h
        exact of_decide_eq_true this.2
      refine ⟨t, ?_⟩
      rw [collapseUnderscores, if_pos h, ht, ha, hb]
    · exact ⟨collapseUnderscores (b :: rest), by rw [collapseUnderscores, if_neg h]⟩

theorem collapseUnderscores_subset (l : List Char) :
    ∀ x ∈ collapseUnderscores l, x ∈ l := by
  induction l using collapseUnderscores.induct with
  | case1 => intro x hx; exact absurd hx (List.not_mem_nil x)
  | case2 c => intro x hx; exact hx
  | case3 a b rest h ih =>
    intro x hx
    rw [collapseUnderscores, if_pos h] at hx
    exact List.mem_cons_of_mem a (ih x hx)
  | case4 a b rest h ih =>
    intro x hx
    rw [collapseUnderscores, if_neg h] at hx
    rcases List.mem_cons.mp hx with hx | hx
    · exact hx ▸ List.mem_cons_self a _
    · exact List.mem_cons_of_mem a (ih x hx)

theorem collapseUnderscores_noDouble (l : List Char) :
    hasDoubleUnderscore (collapseUnderscores l) = false := by
  induction l using collapseUnderscores.induct with
  | case1 => rfl
  | case2 c => rfl
  | case3 a b rest h ih =>
    rw [collapseUnderscores, if_pos h]
    exact ih
  | case4 a b rest h ih =>
    rw [collapseUnderscores, if_neg h]
    obtain ⟨t, ht⟩ := collapseUnderscores_cons rest b
    rw [ht]
    rw [ht] at ih
    have hab : (a = '_' && b = '_') = false := Bool.not_eq_true _ ▸ h
    calc hasDoubleUnderscore (a :: b :: t)
        = ((a = '_' && b = '_') || hasDoubleUnderscore (b :: t)) := rfl
      _ = false := by rw [hab, Bool.false_or]; exact ih

theorem sanChar_allowed (c : Char) : allowedFilenameChar (sanChar c) = true := by
  unfold sanChar
  by_cases h : allowedFilenameChar c = true
  · rw [if_pos h]; exact h
  · rw [if_neg h]; rfl

theorem sanitizeFilename_props (s : String) (hs : s.data ≠ []) :
    (sanitizeFilename s).data ≠ [] ∧
    (sanitizeFilename s).data.all allowedFilenameChar = true ∧
    hasDoubleUnderscore (sanitizeFilename s).data = false := by
  have hd : (sanitizeFilename s).data = collapseUnderscores (s.data.map sanChar) := rfl
  refine ⟨?_, ?_, ?_⟩
  · rw [hd]
    cases hm : s.data.map sanChar with
    | nil => exact absurd (List.map_eq_nil_iff.mp hm) hs
    | cons a t =>
      obtain ⟨u, hu⟩ := collapseUnderscores_cons t a
      rw [hu]
      exact List.cons_ne_nil a u
  · rw [hd, List.all_eq_true]
    intro x hx
    have hx2 := collapseUnderscores_subset _ x hx
    obtain ⟨c, _, hc⟩ := List.mem_map.mp hx2
    exact hc ▸ sanChar_allowed c
  · rw [hd]
    exact collapseUnderscores_noDouble _

theorem utf8Bytes_ne_nil (c : Char) : utf8Bytes c ≠ [] := by
  simp only [utf8Bytes]
  split_ifs <;> simp

theorem pctBytes_ne_nil (l : List Char) (hl : l ≠ []) (bs : List Nat)
    (h : pctBytes l = some bs) : bs ≠ [] := by
  cases l with
  | nil => exact absurd rfl hl
  | cons c rest =>
    unfold pctBytes at h
    split at h
    · split at h
      · split at h
        · injection h with h'
          subst h'
          exact List.cons_ne_nil _ _
        · cases h
      · cases h
    · split at h
      · rename_i bs2 hbs2
        injection h with h'
        subst h'
        intro hnil
        obtain ⟨h1, _⟩ := List.append_eq_nil.mp hnil
        exact utf8Bytes_ne_nil c h1
      · cases h

theorem consOpt_ne_nil (c : Char) (o : Option (List Char)) (cs : List Char)
    (h : consOpt c o = some cs) : cs ≠ [] := by
  cases o with
  | some t =>
    injection h with h'
    subst h'
    exact List.cons_ne_nil _ _
  | none => cases h

theorem utf8DecodeAux_cons_ne_nil (fuel b : Nat) (rest : List Nat) (cs : List Char)
    (h : utf8DecodeAux (Nat.succ fuel) (b :: rest) = some cs) : cs ≠ [] := by
  unfold utf8DecodeAux at h
  split at h
  · exact consOpt_ne_nil _ _ _ h
  · cases h

theorem utf8Decode_ne_nil (bs : List Nat) (hbs : bs ≠ []) (cs : List Char)
    (h : utf8Decode bs = some cs) : cs ≠ [] := by
  cases bs with
  | nil => exact absurd rfl hbs
  | cons b rest => exact utf8DecodeAux_cons_ne_nil rest.length b rest cs h

theorem decodeURIComponent_ne_empty (s t : String) (hs : s.data ≠ [])
    (h : decodeURIComponent s = some t) : t.data ≠ [] := by
  unfold decodeURIComponent at h
  split at h
  · cases h
  · rename_i bs hbs
    split at h
    · cases h
    · rename_i cs hcs
      injection h with h'
      subst h'
      exact utf8Decode_ne_nil bs (pctBytes_ne_nil s.data hs bs hbs) cs hcs

theorem prefixed_data_ne_nil (pre mid post : String) (hpre : pre.data ≠ []) :
    (pre ++ mid ++ post).data ≠ [] := by
  have h1 : (pre ++ mid ++ post).data = (pre.data ++ mid.data) ++ post.data := rfl
  rw [h1]
  intro h
  obtain ⟨h2, _⟩ := List.append_eq_nil.mp h
  obtain ⟨h3, _⟩ := List.append_eq_nil.mp h2
  exact hpre h3

theorem getFilenameRaw_ne_nil (identifier sourceType : String) (now : Nat)
    (urlPathname : Option String) :
    (getFilenameRaw identifier sourceType now urlPathname).data ≠ [] := by
  unfold getFilenameRaw
  by_cases h1 : sourceType = "supabase"
  · rw [if_pos h1]
    cases hlast : (splitOnCh '/' identifier.data).getLast? with
    | none => exact prefixed_data_ne_nil "video_" (toString now) ".mp4" (by decide)
    | some last =>
      dsimp only
      by_cases h2 : last ≠ []
      · rw [if_pos h2]
        simpa using h2
      · rw [if_neg h2]
        exact prefixed_data_ne_nil "video_" (toString now) ".mp4" (by decide)
  · rw [if_neg h1]
    by_cases h2 : sourceType = "external_url"
    · rw [if_pos h2]
      cases urlPathname with
      | none => exact prefixed_data_ne_nil "video_download_" (toString now) ".mp4" (by decide)
      | some pathname =>
        dsimp only
        by_cases h3 : ((splitOnCh '/' pathname.data).getLast?).getD [] ≠ [] ∧
            (((splitOnCh '/' pathname.data).getLast?).getD []).any (· = '.') = true ∧
            isYouTubeURL identifier = false
        · rw [if_pos h3]
          cases hd : decodeURIComponent
              (String.mk (((splitOnCh '/' pathname.data).getLast?).getD [])) with
          | some d => exact decodeURIComponent_ne_empty _ d (by simpa using h3.1) hd
          | none => exact prefixed_data_ne_nil "video_download_" (toString now) ".mp4" (by decide)
        · rw [if_neg h3]
          by_cases h4 : isYouTubeURL identifier = true
          · rw [if_pos h4]
            exact prefixed_data_ne_nil "youtube_" _ ".mp4" (by decide)
          · rw [if_neg h4]
            exact prefixed_data_ne_nil "external_video_" (toString now) ".mp4" (by decide)
    · rw [if_neg h2]
      exact prefixed_data_ne_nil "video_download_" (toString now) ".mp4" (by decide)

/-- C10: the download endpoint's filename resolver is total — URL-parse
and decode failures are caught and fall back to a default — and for
every identifier, sourceType, clock value and URL-parser outcome the
resulting filename is nonempty, consists only of characters from
`[a-zA-Z0-9_.-]`, and contains no two consecutive underscores. -/
theorem C10_getFilename_safe (identifier sourceType : String) (now : Nat)
    (urlPathname : Option String) :
    (getFilename identifier sourceType now urlPathname).data ≠ [] ∧
    (getFilename identifier sourceType now urlPathname).data.all allowedFilenameChar = true ∧
    hasDoubleUnderscore (getFilename identifier sourceType now urlPathname).data = false :=
  sanitizeFilename_props _ (getFilenameRaw_ne_nil identifier sourceType now urlPathname)

theorem length_dropWhile_le (p : Char → Bool) (l : List Char) :
    (l.dropWhile p).length ≤ l.length := by
  induction l with
  | nil => simp
  | cons a t ih =>
    rw [List.dropWhile_cons]
    by_cases h : p a = true
    · rw [h]
      simp only [if_true]
      calc (t.dropWhile p).length ≤ t.length := ih
        _ ≤ (a :: t).length := by simp
    · simp [h]

theorem head_not_ws_of_trimL_eq (l : List Char) (hl : l ≠ []) (h : jsTrimL l = l) :
    ∃ c t, l = c :: t ∧ jsWS c = false := by
  cases l with
  | nil => exact absurd rfl hl
  | cons c t =>
    refine ⟨c, t, rfl, ?_⟩
    cases hws : jsWS c
    · rfl
    · exfalso
      unfold jsTrimL at h
      rw [List.dropWhile_cons, hws] at h
      have hlen := congrArg List.length h
      have hle := length_dropWhile_le jsWS t
      simp at hlen
      omega

theorem dropWhile_reverse_of_trimR_eq (l : List Char) (h : jsTrimR l = l) :
    l.reverse.dropWhile jsWS = l.reverse := by
  unfold jsTrimR at h
  have := congrArg List.reverse h
  simpa using this

theorem jsTrimL_cons_ws (c : Char) (l : List Char) (hc : jsWS c = true) :
    jsTrimL (c :: l) = jsTrimL l := by
  unfold jsTrimL
  rw [List.dropWhile_cons, hc]
  simp

theorem jsTrimL_cons_not_ws (c : Char) (l : List Char) (hc : jsWS c = false) :
    jsTrimL (c :: l) = c :: l := by
  unfold jsTrimL
  rw [List.dropWhile_cons, hc]
  simp

theorem jsTrimR_concat_not_ws (l : List Char) (c : Char) (hc : jsWS c = false) :
    jsTrimR (l ++ [c]) = l ++ [c] := by
  unfold jsTrimR
  have h1 : (l ++ [c]).reverse = c :: l.reverse := by simp
  rw [h1, List.dropWhile_cons, hc]
  simp

theorem stripFences_of_clean (b : List Char) (hb : b ≠ []) (hL : jsTrimL b = b)
    (hR : jsTrimR b = b) (hpre : fence.isPrefixOf b = false)
    (hsuf : fence.isSuffixOf b = false) : stripFences b = b := by
  have htrim : jsTrim b = b := by
    unfold jsTrim
    rw [hL, hR]
  have hpreJ : fenceJson.isPrefixOf b = false := by
    cases hj : fenceJson.isPrefixOf b
    · rfl
    · exfalso
      have h1 : fenceJson <+: b := List.isPrefixOf_iff_prefix.mp hj
      have h2 : fence <+: fenceJson := ⟨"json".data, rfl⟩
      have h3 : fence.isPrefixOf b = true := List.isPrefixOf_iff_prefix.mpr (h2.trans h1)
      exact absurd h3 (by simp [hpre])
  have hlead : stripLeadingFence b = b := by
    unfold stripLeadingFence
    rw [if_neg (by rw [hpreJ]; decide), if_neg (by rw [hpre]; decide)]
  have htrail : stripTrailingFence b = b := by
    unfold stripTrailingFence
    rw [if_neg (by rw [hsuf]; decide)]
  unfold stripFences
  rw [htrim, hlead, htrail, htrim]

theorem stripFences_fenced (b : List Char) (hb : b ≠ []) (hL : jsTrimL b = b)
    (hR : jsTrimR b = b) :
    stripFences (fenceJson ++ '\n' :: b ++ '\n' :: fence) = b := by
  obtain ⟨c, t, hct, hc⟩ := head_not_ws_of_trimL_eq b hb hL
  have hfence : fence = [btick, btick, btick] := rfl
  have htrimL : jsTrimL (fenceJson ++ '\n' :: b ++ '\n' :: fence) =
      fenceJson ++ '\n' :: b ++ '\n' :: fence := by
    have e : fenceJson ++ '\n' :: b ++ '\n' :: fence =
        btick :: ([btick, btick, 'j', 's', 'o', 'n'] ++ '\n' :: b ++ '\n' :: fence) := rfl
    rw [e, jsTrimL_cons_not_ws _ _ (by decide)]
  have htrimR : jsTrimR (fenceJson ++ '\n' :: b ++ '\n' :: fence) =
      fenceJson ++ '\n' :: b ++ '\n' :: fence := by
    have e : fenceJson ++ '\n' :: b ++ '\n' :: fence =
        (fenceJson ++ '\n' :: b ++ ['\n', btick, btick]) ++ [btick] := by
      rw [hfence]
      simp
    rw [e, jsTrimR_concat_not_ws _ _ (by decide)]
  have htrim : jsTrim (fenceJson ++ '\n' :: b ++ '\n' :: fence) =
      fenceJson ++ '\n' :: b ++ '\n' :: fence := by
    unfold jsTrim
    rw [htrimL, htrimR]
  have hpreJ : fenceJson.isPrefixOf (fenceJson ++ '\n' :: b ++ '\n' :: fence) = true :=
    List.isPrefixOf_iff_prefix.mpr (List.prefix_append _ _)
  have hdrop : (fenceJson ++ '\n' :: b ++ '\n' :: fence).drop fenceJson.length =
      '\n' :: b ++ '\n' :: fence := by
    have := List.drop_left fenceJson ('\n' :: b ++ '\n' :: fence)
    simpa using this
  have hsufT : fence.isSuffixOf ('\n' :: b ++ '\n' :: fence) = true := by
    refine List.isSuffixOf_iff_suffix.mpr ⟨'\n' :: b ++ ['\n'], ?_⟩
    simp
  have htake : ('\n' :: b ++ '\n' :: fence).take
      (('\n' :: b ++ '\n' :: fence).length - fence.length) = '\n' :: b ++ ['\n'] := by
    have e : '\n' :: b ++ '\n' :: fence = ('\n' :: b ++ ['\n']) ++ fence := by simp
    rw [e]
    have hlen : ((('\n' :: b ++ ['\n']) ++ fence).length - fence.length) =
        ('\n' :: b ++ ['\n']).length := by
      simp only [List.length_append, List.length_cons]
      omega
    rw [hlen, List.take_left]
  have hlead : stripLeadingFence (fenceJson ++ '\n' :: b ++ '\n' :: fence) =
      '\n' :: b ++ '\n' :: fence := by
    unfold stripLeadingFence
    rw [if_pos hpreJ]
    exact hdrop
  have htrail : stripTrailingFence ('\n' :: b ++ '\n' :: fence) = '\n' :: b ++ ['\n'] := by
    unfold stripTrailingFence
    rw [if_pos hsufT]
    exact htake
  have hfinal : jsTrim ('\n' :: b ++ ['\n']) = b := by
    unfold jsTrim
    have h1 : jsTrimL ('\n' :: b ++ ['\n']) = b ++ ['\n'] := by
      have e : '\n' :: b ++ ['\n'] = '\n' :: (b ++ ['\n']) := by simp
      rw [e, jsTrimL_cons_ws _ _ (by decide), hct]
      have e2 : (c :: t) ++ ['\n'] = c :: (t ++ ['\n']) := by simp
      rw [e2, jsTrimL_cons_not_ws _ _ hc]
    rw [h1]
    unfold jsTrimR
    have h2 : (b ++ ['\n']).reverse = '\n' :: b.reverse := by simp
    rw [h2, List.dropWhile_cons]
    have hnl : jsWS '\n' = true := by decide
    rw [hnl]
    simp only [if_true]
    rw [dropWhile_reverse_of_trimR_eq b hR]
    simp
  unfold stripFences
  rw [htrim, hlead, htrail, hfinal]

/-- C9 (amended): the model response text is stripped of incidental
Markdown code fences before JSON parsing — for any parse function, a
```` ```json ````-fenced body parses to the same value as the bare
body — but the parsed value is embedded in the success response
exactly as `JSON.parse` produced it: no element-level field presence
or type validation is performed before the clips are returned. -/
theorem C9_parse_amended :
    (∀ (parse : List Char → Option JVal) (b : List Char),
        b ≠ [] → jsTrimL b = b → jsTrimR b = b →
        fence.isPrefixOf b = false → fence.isSuffixOf b = false →
        parse (stripFences (fenceJson ++ '\n' :: b ++ '\n' :: fence)) =
          parse (stripFences b)) ∧
    (∀ clips pathOrUrl st, objGet (processVideoSuccessResponse clips pathOrUrl st)
        "initialClips" = some clips) := by
  constructor
  · intro parse b hb hL hR hpre hsuf
    rw [stripFences_fenced b hb hL hR, stripFences_of_clean b hb hL hR hpre hsuf]
  · intro clips pathOrUrl st
    rfl

/-- C9 (witness): a concrete application — the fenced body `[1]`
strips to the same text as the bare body, so any parser sees the same
input; and a concrete clips value rides through the success response
unchanged. -/
theorem C9_parse_witness :
    (fun l => some (JVal.jstr (String.mk l)))
        (stripFences (fenceJson ++ '\n' :: "[1]".data ++ '\n' :: fence)) =
      (fun l => some (JVal.jstr (String.mk l))) (stripFences "[1]".data) :=
  C9_parse_amended.1 (fun l => some (JVal.jstr (String.mk l))) "[1]".data
    (by decide) (by decide) (by decide) (by decide) (by decide)

/-- C9 (counterexample): a parsed array whose element has none of the
documented fields (`startTime`, `endTime`, `description`,
`transcription`) is embedded verbatim in the success response — the
claimed explicit validation of element field presence and types does
not happen ([part_000:199,244-252] go straight from `JSON.parse` to
the response). -/
theorem C9_counterexample :
    objGet (processVideoSuccessResponse (.jarr [.jobj [("foo", .jnum 1)]]) "p" "s")
        "initialClips" = some (.jarr [.jobj [("foo", .jnum 1)]]) ∧
    objGet (.jobj [("foo", .jnum 1)]) "startTime" = none := ⟨rfl, rfl⟩
